import Mathlib

/-!
# Krita: shape containers (flake) and linked-resources snapshots

A shallow embedding of

* `libs/flake/KoShapeContainer.cpp`: the queries of a shape container, `paint`,
  `shapeChanged`, and `ShapeInterface::addShape` / `ShapeInterface::removeShape`;
* `libs/resources/KisLinkedResourcesOperators.h`: `hasLocalResourcesSnapshot`,
  `createLocalResourcesSnapshot` and `cloneWithResourcesSnapshot`.

Pointers are identifiers (`ShapeId`), a null pointer is `none`.  Member functions
that mutate take the heap and return the new heap together with the list of the
calls they issued on collaborators, in program order.  Calls on collaborators
whose bodies live outside these files (virtual `paint`, `notifyChanged`,
`childChanged`, ...) are recorded, not interpreted.

Definitions come first, theorems follow.
-/

set_option linter.unusedVariables false

namespace KoFlake

/-- A `KoShape*` (a container is a shape too); `Option ShapeId` is a nullable pointer. -/
abbrev ShapeId := Nat

/-- A `KoShapeStrokeModel*` that is not null. -/
abbrev StrokeId := Nat

/-- The values of `KoShape::ChangeType` that `KoShapeContainer.cpp` names, and `other n`
for every further enumerator of the enum, whose declaration is in `KoShape.h`. -/
inductive ChangeType
  | PositionChanged
  | RotationChanged
  | ScaleChanged
  | ShearChanged
  | SizeChanged
  | GenericMatrixChange
  | ChildChanged
  | other (n : Nat)
  deriving DecidableEq, Repr

/-- Per-child flags kept by a container model. -/
structure ChildFlags where
  locked : Bool
  clipped : Bool
  inheritsTransform : Bool
  deriving DecidableEq, Repr

/-- Modelled from the spec: `KoShapeContainerModel` (interface) and
`SimpleShapeContainerModel` (the default implementation) are declared in headers that
are not part of the sources at hand.  The spec describes the model as "a mapping from
contained shapes to per-shape flags (locked, clipped, inherits-transform)" with the
interface "add/remove/count/clip/lock/inherit-transform/shapes enumeration".  It is an
association list in insertion order. -/
structure KoShapeContainerModel where
  members : List (ShapeId × ChildFlags)
  deriving DecidableEq, Repr

namespace KoShapeContainerModel

/-- The model a container gets from `new SimpleShapeContainerModel()`. -/
def empty : KoShapeContainerModel := ⟨[]⟩

/-- `model->shapes()`. -/
def shapes (m : KoShapeContainerModel) : List ShapeId := m.members.map Prod.fst

/-- `model->count()`. -/
def count (m : KoShapeContainerModel) : Nat := m.members.length

/-- Flags of a child, if the model holds it. -/
def flagsOf (m : KoShapeContainerModel) (child : Option ShapeId) : Option ChildFlags :=
  match child with
  | none => none
  | some c => (m.members.find? (fun e => e.1 == c)).map Prod.snd

/-- `model->isChildLocked(child)`. -/
def isChildLocked (m : KoShapeContainerModel) (child : Option ShapeId) : Bool :=
  match m.flagsOf child with
  | some f => f.locked
  | none => false

/-- `model->isClipped(child)`. -/
def isClipped (m : KoShapeContainerModel) (child : Option ShapeId) : Bool :=
  match m.flagsOf child with
  | some f => f.clipped
  | none => false

/-- `model->inheritsTransform(child)`. -/
def inheritsTransform (m : KoShapeContainerModel) (child : Option ShapeId) : Bool :=
  match m.flagsOf child with
  | some f => f.inheritsTransform
  | none => false

/-- `model->add(shape)`: a shape already held stays as it is, a new one is appended. -/
def add (m : KoShapeContainerModel) (s : ShapeId) : KoShapeContainerModel :=
  if s ∈ m.shapes then m else ⟨m.members ++ [(s, ⟨false, false, true⟩)]⟩

/-- `model->remove(shape)`: the entry of the shape leaves the mapping. -/
def remove (m : KoShapeContainerModel) (s : ShapeId) : KoShapeContainerModel :=
  ⟨m.members.filter (fun e => e.1 != s)⟩

end KoShapeContainerModel

/-- The part of the object graph that `KoShapeContainer.cpp` reads and writes:
`model q` is `d->model` of container `q` (`none` when it is null) and `parent s` is
`s->parent()`. -/
structure Heap where
  model : ShapeId → Option KoShapeContainerModel
  parent : ShapeId → Option ShapeId

/-- Replace `d->model` of container `q`. -/
def Heap.setModel (h : Heap) (q : ShapeId) (m : Option KoShapeContainerModel) : Heap :=
  { h with model := fun x => if x = q then m else h.model x }

/-- Calls issued on collaborators by `shapeChanged`, `addShape` and `removeShape`. -/
inductive Call
  /-- a `KIS_SAFE_ASSERT_RECOVER_RETURN` whose condition was false -/
  | safeAssertFailed
  /-- `d->model = new SimpleShapeContainerModel()` in container `q` -/
  | newModel (q : ShapeId)
  /-- `model->add(s)` on the model of container `q` -/
  | modelAdd (q s : ShapeId)
  /-- `model->remove(s)` on the model of container `q` -/
  | modelRemove (q s : ShapeId)
  /-- `g->model()->childChanged(q, t)` -/
  | childChanged (g q : ShapeId) (t : ChangeType)
  /-- `model->containerChanged(q, t)` on the model of container `q` -/
  | containerChanged (q : ShapeId) (t : ChangeType)
  /-- `s->notifyChanged()` -/
  | notifyChanged (s : ShapeId)
  deriving DecidableEq, Repr

/-! ## Queries -/

/-- `KoShapeContainer::shapeCount`. -/
def shapeCount (h : Heap) (q : ShapeId) : Nat :=
  match h.model q with
  | none => 0
  | some m => m.count

/-- `KoShapeContainer::isChildLocked`. -/
def isChildLocked (h : Heap) (q : ShapeId) (child : Option ShapeId) : Bool :=
  match h.model q with
  | none => false
  | some m => m.isChildLocked child

/-- `KoShapeContainer::inheritsTransform`. -/
def inheritsTransform (h : Heap) (q : ShapeId) (shape : Option ShapeId) : Bool :=
  match h.model q with
  | none => false
  | some m => m.inheritsTransform shape

/-- `KoShapeContainer::isClipped`. -/
def isClipped (h : Heap) (q : ShapeId) (child : Option ShapeId) : Bool :=
  match h.model q with
  | none => false
  | some m => m.isClipped child

/-- `KoShapeContainer::shapes`. -/
def shapes (h : Heap) (q : ShapeId) : List ShapeId :=
  match h.model q with
  | none => []
  | some m => m.shapes

/-! ## shapeChanged -/

/-- The test of `shapeChanged` on the change type. -/
def isGeometryChange (type : ChangeType) : Bool :=
  type == .RotationChanged || type == .ScaleChanged || type == .ShearChanged
    || type == .SizeChanged || type == .PositionChanged || type == .GenericMatrixChange

/-- `KoShapeContainer::shapeChanged(type, shape)` on container `q`: the calls it makes. -/
def shapeChanged (h : Heap) (q : ShapeId) (type : ChangeType) (shape : Option ShapeId) :
    List Call :=
  match h.model q with
  | none => []
  | some m =>
    if !(isGeometryChange type) then []
    else Call.containerChanged q type :: m.shapes.map Call.notifyChanged

/-! ## ShapeInterface -/

/-- `KoShapeContainer::ShapeInterface::removeShape(shape)` on container `q`.
`KIS_SAFE_ASSERT_RECOVER_RETURN(c)` (from `kis_assert.h`) is taken as the spec
describes it, "recover-and-return": when `c` is false the failure is reported and
the function returns.  The result is `none` when the code dereferences a null
pointer (`grandparent->model()` is null). -/
def removeShape (h : Heap) (q : ShapeId) (shape : Option ShapeId) :
    Option (Heap × List Call) :=
  match shape with
  | none => some (h, [Call.safeAssertFailed])
  | some s =>
    match h.model q with
    | none => some (h, [Call.safeAssertFailed])
    | some m =>
      if !(m.shapes.contains s) then some (h, [Call.safeAssertFailed])
      else
        let h1 := h.setModel q (some (m.remove s))
        match h1.parent q with
        | none => some (h1, [Call.modelRemove q s])
        | some grandparent =>
          match h1.model grandparent with
          | none => none
          | some _ =>
            some (h1, [Call.modelRemove q s,
                       Call.childChanged grandparent q ChangeType.ChildChanged])

/-- `KoShapeContainer::ShapeInterface::addShape(shape)` on container `q`.
`Q_ASSERT(shape)` compiles to nothing in a release build, so a null `shape` is
dereferenced by `shape->parent()`: the result is `none` then, and when the nested
`removeShape` dereferences a null pointer. -/
def addShape (h : Heap) (q : ShapeId) (shape : Option ShapeId) :
    Option (Heap × List Call) :=
  match shape with
  | none => none
  | some s =>
    if h.parent s = some q && (shapes h q).contains s then some (h, [])
    else
      let (h1, t1) :=
        match h.model q with
        | none => (h.setModel q (some KoShapeContainerModel.empty), [Call.newModel q])
        | some _ => (h, [])
      let r2 : Option (Heap × List Call) :=
        match h1.parent s with
        | none => some (h1, [])
        | some p => if p ≠ q then removeShape h1 p (some s) else some (h1, [])
      match r2 with
      | none => none
      | some (h2, t2) =>
        match h2.model q with
        | none => none
        | some m =>
          some (h2.setModel q (some (m.add s)), t1 ++ t2 ++ [Call.modelAdd q s])

/-! ## paint -/

/-- The operations of the GUI toolkit that `paint` uses (`QTransform`, `QRectF`,
`QPainterPath`, the clip of a `QPainter`, and `KisPaintingTweaks`).  The toolkit is
not part of the sources, so its types and operations are parameters. -/
structure Qt where
  QTransform : Type
  QRectF : Type
  QPainterPath : Type
  qreal : Type
  Clip : Type
  /-- `QTransform()` -/
  identity : QTransform
  /-- `a.inverted()` -/
  inverted : QTransform → QTransform
  /-- `a * b` -/
  mul : QTransform → QTransform → QTransform
  /-- `m.scale(sx, sy)` -/
  scale : QTransform → qreal → qreal → QTransform
  /-- `m.map(path)` -/
  mapPath : QTransform → QPainterPath → QPainterPath
  /-- `m.mapRect(rect)` -/
  mapRect : QTransform → QRectF → QRectF
  /-- `path.boundingRect()` -/
  pathBoundingRect : QPainterPath → QRectF
  /-- `a.intersects(b)` -/
  intersects : QRectF → QRectF → Bool
  /-- the clip after `setClipPath(path, Qt::IntersectClip)` under the given transform -/
  intersectClip : QTransform → Clip → QPainterPath → Clip
  /-- `KisPaintingTweaks::safeClipBoundingRect` of a painter with this transform and clip -/
  safeClipBoundingRect : QTransform → Clip → QRectF

/-- The state of a `QPainter` that `paint` reads and writes. -/
structure QPainter (Q : Qt) where
  transform : Q.QTransform
  clip : Q.Clip
  saved : List (Q.QTransform × Q.Clip)

/-- `painter.save()`. -/
def QPainter.save {Q : Qt} (p : QPainter Q) : QPainter Q :=
  { p with saved := (p.transform, p.clip) :: p.saved }

/-- `painter.restore()`; without a saved state the painter stays as it is. -/
def QPainter.restore {Q : Qt} (p : QPainter Q) : QPainter Q :=
  match p.saved with
  | [] => p
  | (t, c) :: rest => { transform := t, clip := c, saved := rest }

/-- `painter.setTransform(t)`. -/
def QPainter.setTransform {Q : Qt} (p : QPainter Q) (t : Q.QTransform) : QPainter Q :=
  { p with transform := t }

/-- `painter.setClipPath(path, Qt::IntersectClip)`. -/
def QPainter.setClipPath {Q : Qt} (p : QPainter Q) (path : Q.QPainterPath) : QPainter Q :=
  { p with clip := Q.intersectClip p.transform p.clip path }

/-- The part of a `KoViewConverter` that `paint` uses. -/
structure KoViewConverter (Q : Qt) where
  zoomX : Q.qreal
  zoomY : Q.qreal
  viewToDocument : Q.QRectF → Q.QRectF

/-- The attributes of a `KoShape` that `paint` reads. -/
structure KoShape (Q : Qt) where
  isVisible : Bool
  boundingRect : Q.QRectF
  stroke : Option StrokeId
  /-- `absoluteTransformation(converter)`, the converter may be null -/
  absoluteTransformation : Option (KoViewConverter Q) → Q.QTransform
  transform : Q.QTransform
  outline : Q.QPainterPath

/-- Virtual paint calls issued by `paint`, each with the painter transform in force. -/
inductive PaintCall (Q : Qt)
  /-- `paintComponent(painter, converter, paintcontext)` of container `q` -/
  | paintComponent (q : ShapeId) (t : Q.QTransform)
  /-- `shape->paint(painter, converter, paintcontext)` -/
  | shapePaint (shape : ShapeId) (t : Q.QTransform)
  /-- `shape->stroke()->paint(shape, painter, converter)` -/
  | strokePaint (stroke : StrokeId) (shape : ShapeId) (t : Q.QTransform)

/-- The child a paint call is made for. -/
def PaintCall.child {Q : Qt} : PaintCall Q → Option ShapeId
  | .paintComponent _ _ => none
  | .shapePaint s _ => some s
  | .strokePaint _ s _ => some s

/-- The children whose `paint` was called, in call order. -/
def paintedShapes {Q : Qt} : List (PaintCall Q) → List ShapeId
  | [] => []
  | .shapePaint s _ :: rest => s :: paintedShapes rest
  | _ :: rest => paintedShapes rest

/-- The calls made for child `s` (its `paint` and the `paint` of its stroke), in order. -/
def callsFor {Q : Qt} (s : ShapeId) (tr : List (PaintCall Q)) : List (PaintCall Q) :=
  tr.filter (fun e => e.child == some s)

/-- One insertion step of `qSort`: `x` goes before the first element it is less than. -/
def qSortInsert {α : Type} (lessThan : α → α → Bool) (x : α) : List α → List α
  | [] => [x]
  | y :: ys => if lessThan x y then x :: y :: ys else y :: qSortInsert lessThan x ys

/-- `qSort(begin, end, lessThan)` of the toolkit (`QtAlgorithms`), which is not part of
the sources: it puts the range in ascending order under `lessThan`.  It is taken
here as a sort by insertion. -/
def qSort {α : Type} (lessThan : α → α → Bool) : List α → List α
  | [] => []
  | x :: xs => qSortInsert lessThan x (qSort lessThan xs)

/-- `toPaintRect` of `paint`, given the painter after `setClipPath`: the clip bounding
rectangle of the painter, converted from view to document coordinates and mapped
through `transform()` of the container. -/
def toPaintRect {Q : Qt} (self : KoShape Q) (converter : KoViewConverter Q)
    (painter : QPainter Q) : Q.QRectF :=
  Q.mapRect self.transform
    (converter.viewToDocument (Q.safeClipBoundingRect painter.transform painter.clip))

/-- `clipRect` of `paint`: the bounding rectangle of the outline of the container
mapped through `absoluteTransformation(0)`. -/
def clipRect {Q : Qt} (self : KoShape Q) : Q.QRectF :=
  Q.pathBoundingRect (Q.mapPath (self.absoluteTransformation none) self.outline)

/-- The `Q_FOREACH` loop of `paint` over `sortedObjects`. -/
def paintChildren {Q : Qt} (attrs : ShapeId → KoShape Q) (converter : KoViewConverter Q)
    (baseMatrix : Q.QTransform) (clipRect : Q.QRectF) :
    List ShapeId → QPainter Q → QPainter Q × List (PaintCall Q)
  | [], painter => (painter, [])
  | shape :: rest, painter =>
    if !(attrs shape).isVisible then
      paintChildren attrs converter baseMatrix clipRect rest painter
    else if !(Q.intersects clipRect (attrs shape).boundingRect) then
      paintChildren attrs converter baseMatrix clipRect rest painter
    else
      let p1 := painter.save.setTransform
        (Q.mul ((attrs shape).absoluteTransformation (some converter)) baseMatrix)
      let e1 := PaintCall.shapePaint shape p1.transform
      let p2 := p1.restore
      match (attrs shape).stroke with
      | none =>
        let r := paintChildren attrs converter baseMatrix clipRect rest p2
        (r.1, e1 :: r.2)
      | some stroke =>
        let p3 := p2.save.setTransform
          (Q.mul ((attrs shape).absoluteTransformation (some converter)) baseMatrix)
        let e2 := PaintCall.strokePaint stroke shape p3.transform
        let p4 := p3.restore
        let r := paintChildren attrs converter baseMatrix clipRect rest p4
        (r.1, e1 :: e2 :: r.2)

/-- `KoShapeContainer::paint(painter, converter, paintcontext)` on container `q`.
`attrs` gives the attributes of every shape, `compareShapeZIndex` is
`KoShape::compareShapeZIndex` (declared in `KoShape.h`, a parameter here).
The result is the painter on return and the virtual paint calls in order. -/
def paint {Q : Qt} (h : Heap) (attrs : ShapeId → KoShape Q)
    (compareShapeZIndex : ShapeId → ShapeId → Bool) (q : ShapeId)
    (painter : QPainter Q) (converter : KoViewConverter Q) :
    QPainter Q × List (PaintCall Q) :=
  let p0 := painter.save
  let e0 := PaintCall.paintComponent q p0.transform
  let p1 := p0.restore
  match h.model q with
  | none => (p1, [e0])
  | some model =>
    if model.count = 0 then (p1, [e0])
    else
      let sortedObjects := qSort compareShapeZIndex model.shapes
      let baseMatrix :=
        Q.mul (Q.inverted ((attrs q).absoluteTransformation (some converter))) p1.transform
      let m := Q.scale Q.identity converter.zoomX converter.zoomY
      let p2 := p1.setClipPath (Q.mapPath m (attrs q).outline)
      let toPaintRect := toPaintRect (attrs q) converter p2
      let absTrans := (attrs q).absoluteTransformation none
      let clipRect := Q.pathBoundingRect (Q.mapPath absTrans (attrs q).outline)
      let r := paintChildren attrs converter baseMatrix clipRect sortedObjects p2
      (r.1, e0 :: r.2)

/-- The calls one turn of the loop of `paint` makes for child `s`: none when the child
is hidden or its bounding rectangle misses `clipRect`, else its `paint` and, with a
stroke, the `paint` of the stroke, both under the transform set just before. -/
def childCalls {Q : Qt} (attrs : ShapeId → KoShape Q) (converter : KoViewConverter Q)
    (baseMatrix : Q.QTransform) (clipRect : Q.QRectF) (s : ShapeId) : List (PaintCall Q) :=
  if (attrs s).isVisible && Q.intersects clipRect (attrs s).boundingRect then
    PaintCall.shapePaint s
        (Q.mul ((attrs s).absoluteTransformation (some converter)) baseMatrix) ::
      (match (attrs s).stroke with
       | none => []
       | some k => [PaintCall.strokePaint k s
          (Q.mul ((attrs s).absoluteTransformation (some converter)) baseMatrix)])
  else []

/-- The value that `toPaintRect` has in a call of `paint` that reaches the loop over
the children: the rectangle computed from the painter after `setClipPath`. -/
def paintToPaintRect {Q : Qt} (attrs : ShapeId → KoShape Q) (q : ShapeId)
    (painter : QPainter Q) (converter : KoViewConverter Q) : Q.QRectF :=
  toPaintRect (attrs q) converter
    (painter.save.restore.setClipPath
      (Q.mapPath (Q.scale Q.identity converter.zoomX converter.zoomY) (attrs q).outline))

/-! ## Concrete scenes

A small toolkit instance (integer rectangles, translations, zoom 1) and two object
graphs on which the functions above are evaluated. -/

/-- An axis-aligned rectangle with integer coordinates. -/
structure IRect where
  x : Int
  y : Int
  w : Int
  h : Int
  deriving DecidableEq, Repr

/-- Move a rectangle by a translation. -/
def IRect.shift (t : Int × Int) (r : IRect) : IRect := ⟨r.x + t.1, r.y + t.2, r.w, r.h⟩

/-- Two rectangles of positive size overlap. -/
def IRect.intersects (a b : IRect) : Bool :=
  decide (0 < a.w) && decide (0 < a.h) && decide (0 < b.w) && decide (0 < b.h)
    && decide (a.x < b.x + b.w) && decide (b.x < a.x + a.w)
    && decide (a.y < b.y + b.h) && decide (b.y < a.y + a.h)

/-- The common part of two rectangles (of size 0 when they do not overlap). -/
def IRect.inter (a b : IRect) : IRect :=
  let x0 := max a.x b.x
  let y0 := max a.y b.y
  let x1 := min (a.x + a.w) (b.x + b.w)
  let y1 := min (a.y + a.h) (b.y + b.h)
  ⟨x0, y0, max 0 (x1 - x0), max 0 (y1 - y0)⟩

/-- A toolkit whose transforms are translations by integers, whose paths are
rectangles and whose zoom is 1; the clip of a painter is a rectangle in device
coordinates, or `none` when clipping is off. -/
def translationQt : Qt where
  QTransform := Int × Int
  QRectF := IRect
  QPainterPath := IRect
  qreal := Unit
  Clip := Option IRect
  identity := (0, 0)
  inverted := fun t => (-t.1, -t.2)
  mul := fun a b => (a.1 + b.1, a.2 + b.2)
  scale := fun m _ _ => m
  mapPath := fun t r => r.shift t
  mapRect := fun t r => r.shift t
  pathBoundingRect := fun r => r
  intersects := fun a b => a.intersects b
  intersectClip := fun t c path =>
    match c with
    | none => some (path.shift t)
    | some r => some (r.inter (path.shift t))
  safeClipBoundingRect := fun t c =>
    match c with
    | none => ⟨0, 0, 0, 0⟩
    | some r => r.shift (-t.1, -t.2)

/-- Flags of a freshly added child. -/
def exFlags : ChildFlags := ⟨false, false, true⟩

/-- An object graph: container 10 holds the containers 11 and 12, container 11 holds
the shapes 1 and 2, container 12 holds the shape 3; every other container has no
model. -/
def exHeap : Heap where
  model := fun x =>
    if x = 10 then some ⟨[(11, exFlags), (12, exFlags)]⟩
    else if x = 11 then some ⟨[(1, exFlags), (2, exFlags)]⟩
    else if x = 12 then some ⟨[(3, exFlags)]⟩
    else none
  parent := fun x =>
    if x = 11 ∨ x = 12 then some 10
    else if x = 1 ∨ x = 2 then some 11
    else if x = 3 then some 12
    else none

/-- A painted scene: container 0 with outline 100 x 100 at the origin holds the
children 1 to 4. -/
def sceneHeap : Heap where
  model := fun x =>
    if x = 0 then some ⟨[(1, exFlags), (2, exFlags), (3, exFlags), (4, exFlags)]⟩ else none
  parent := fun x => if x = 0 then none else some 0

/-- Attributes in the scene: child 1 (stroke 7) and child 2 (no stroke) are visible and
lie inside the outline, child 3 is hidden, child 4 is visible and lies outside. -/
def sceneAttrs : ShapeId → KoShape translationQt := fun x =>
  { isVisible := decide (x ≠ 3)
    boundingRect :=
      if x = 0 then ⟨0, 0, 100, 100⟩
      else if x = 1 then ⟨50, 50, 10, 10⟩
      else if x = 2 then ⟨60, 60, 10, 10⟩
      else if x = 3 then ⟨10, 10, 10, 10⟩
      else ⟨200, 200, 10, 10⟩
    stroke := if x = 1 then some 7 else none
    absoluteTransformation := fun _ => ((0 : Int), (0 : Int))
    transform := ((0 : Int), (0 : Int))
    outline := if x = 0 then ⟨0, 0, 100, 100⟩ else ⟨0, 0, 10, 10⟩ }

/-- The z-index of the shapes of the scene: child 2 lies below child 1. -/
def sceneZIndex (x : ShapeId) : Int := if x = 1 then 2 else if x = 2 then 1 else 0

/-- A comparator by z-index for the scene. -/
def sceneCompare (a b : ShapeId) : Bool := decide (sceneZIndex a < sceneZIndex b)

/-- A painter with the identity transform that is clipped to the exposed rectangle
10 x 10 at the origin. -/
def scenePainter : QPainter translationQt :=
  { transform := ((0 : Int), (0 : Int)), clip := some ⟨0, 0, 10, 10⟩, saved := [] }

/-- A view converter with zoom 1 that maps view rectangles to themselves. -/
def sceneConverter : KoViewConverter translationQt :=
  { zoomX := (), zoomY := (), viewToDocument := fun r => r }

end KoFlake

namespace KisLinkedResourcesOperators

/-- A `KoResourceSP`, by identity. -/
abbrev KoResourceSP := Nat

/-- Modelled from the spec: `KisResourcesInterface` is declared in
`KisResourcesInterface.h`, which is not part of the sources.  The spec: "an externally
supplied lookup capability from resource identifiers to resource data; may be local
(self-contained snapshot) or live (shared global registry)". -/
inductive KisResourcesInterface
  | live (registry : Nat)
  | localStorage (resources : List KoResourceSP)
  deriving DecidableEq, Repr

/-- A shared pointer to a resources interface; `none` is the null pointer. -/
abbrev KisResourcesInterfaceSP := Option KisResourcesInterface

namespace detail

/-- Modelled from the spec: `detail::isLocalResourcesStorage` is only declared in the
header; the spec says the query is "true iff the object's current resources interface
is a local (non-shared) store". -/
def isLocalResourcesStorage : KisResourcesInterfaceSP → Bool
  | some (.localStorage _) => true
  | _ => false

/-- Modelled from the spec: `detail::createLocalResourcesStorage` is only declared in
the header; the spec says it "builds a new local store from the resolved set". -/
def createLocalResourcesStorage (resources : List KoResourceSP) : KisResourcesInterfaceSP :=
  some (.localStorage resources)

end detail

/-- Modelled from the spec: the object type `T` of the templates (a filter or generator
configuration), which is not part of the sources.  The spec: "A consuming object holds
at most one resources-interface reference at a time, replaceable via a single setter",
with "a way to enumerate linked resource identifiers". -/
structure Object where
  resourcesInterface : KisResourcesInterfaceSP
  linkedResources : KisResourcesInterfaceSP → List KoResourceSP

/-- `object->setResourcesInterface(iface)`. -/
def Object.setResourcesInterface (o : Object) (iface : KisResourcesInterfaceSP) : Object :=
  { o with resourcesInterface := iface }

/-- `object->clone()` followed by the cast back to `T`: "an exact copy of the object". -/
def Object.clone (o : Object) : Object := o

/-- Calls issued by the templates, in program order. -/
inductive Call
  | assertInGuiThread
  | clone
  | linkedResources (iface : KisResourcesInterfaceSP)
  | createLocalResourcesStorage (resources : List KoResourceSP)
  | setResourcesInterface (iface : KisResourcesInterfaceSP)
  /-- a `KIS_SAFE_ASSERT_RECOVER_NOOP` whose condition was false -/
  | safeAssertFailed
  deriving DecidableEq, Repr

/-- `hasLocalResourcesSnapshot(object)`. -/
def hasLocalResourcesSnapshot (object : Object) : Bool :=
  detail.isLocalResourcesStorage object.resourcesInterface

/-- `createLocalResourcesSnapshot(object, globalResourcesInterface)`: the object after
the call and the calls made. -/
def createLocalResourcesSnapshot (object : Object)
    (globalResourcesInterface : KisResourcesInterfaceSP) : Object × List Call :=
  let source :=
    match globalResourcesInterface with
    | some g => some g
    | none => object.resourcesInterface
  let resources := object.linkedResources source
  let storage := detail.createLocalResourcesStorage resources
  (object.setResourcesInterface storage,
    [Call.assertInGuiThread, Call.linkedResources source,
     Call.createLocalResourcesStorage resources, Call.setResourcesInterface storage])

/-- `cloneWithResourcesSnapshot(object, globalResourcesInterface)`: the clone that is
returned and the calls made. -/
def cloneWithResourcesSnapshot (object : Object)
    (globalResourcesInterface : KisResourcesInterfaceSP) : Object × List Call :=
  let cloned := object.clone
  if !(hasLocalResourcesSnapshot cloned) then
    let r := createLocalResourcesSnapshot cloned globalResourcesInterface
    if !(hasLocalResourcesSnapshot r.1) then (r.1, Call.clone :: r.2 ++ [Call.safeAssertFailed])
    else (r.1, Call.clone :: r.2)
  else (cloned, [Call.clone])

/-- An object bound to the live registry 0 that links the resources 4 and 5. -/
def exObject : Object :=
  { resourcesInterface := some (.live 0), linkedResources := fun _ => [4, 5] }

end KisLinkedResourcesOperators

namespace KoFlake

/-- C1 (a container with no model behaves as an empty container): when `d->model` of
container `q` is null, `shapeCount` is 0, `isChildLocked`, `isClipped` and
`inheritsTransform` are false for every child pointer (null included) and `shapes`
is the empty list.  The queries are total functions, so none of them fails. -/
theorem null_model_queries (h : Heap) (q : ShapeId) (hm : h.model q = none)
    (c : Option ShapeId) :
    shapeCount h q = 0 ∧ isChildLocked h q c = false ∧ isClipped h q c = false ∧
      inheritsTransform h q c = false ∧ shapes h q = [] := by
  simp [shapeCount, isChildLocked, isClipped, inheritsTransform, shapes, hm]

end KoFlake

namespace KoFlake

/-! ## Facts about `qSort` -/

theorem qSortInsert_perm {α : Type} (lt : α → α → Bool) (x : α) (l : List α) :
    (qSortInsert lt x l).Perm (x :: l) := by
  induction l with
  | nil => simp [qSortInsert]
  | cons y ys ih =>
    unfold qSortInsert
    split
    · exact List.Perm.refl _
    · exact (List.Perm.cons y ih).trans (List.Perm.swap x y ys)

theorem qSort_perm {α : Type} (lt : α → α → Bool) (l : List α) : (qSort lt l).Perm l := by
  induction l with
  | nil => simp [qSort]
  | cons x xs ih =>
    unfold qSort
    exact (qSortInsert_perm lt x _).trans (List.Perm.cons x ih)

theorem qSortInsert_sorted {α : Type} (lt : α → α → Bool)
    (hasymm : ∀ a b, lt a b = true → lt b a = false)
    (hneg : ∀ a b c, lt a b = false → lt b c = false → lt a c = false)
    (x : α) (l : List α) (hl : l.Pairwise (fun a b => lt b a = false)) :
    (qSortInsert lt x l).Pairwise (fun a b => lt b a = false) := by
  induction l with
  | nil => simp [qSortInsert]
  | cons y ys ih =>
    rw [List.pairwise_cons] at hl
    unfold qSortInsert
    split
    · rename_i hxy
      refine List.pairwise_cons.mpr ⟨?_, List.pairwise_cons.mpr hl⟩
      intro z hz
      rcases List.mem_cons.mp hz with rfl | hz
      · exact hasymm _ _ hxy
      · exact hneg _ _ _ (hl.1 z hz) (hasymm _ _ hxy)
    · rename_i hxy
      refine List.pairwise_cons.mpr ⟨?_, ih hl.2⟩
      intro z hz
      have hz2 : z ∈ x :: ys := (qSortInsert_perm lt x ys).mem_iff.mp hz
      rcases List.mem_cons.mp hz2 with rfl | hz3
      · simpa using hxy
      · exact hl.1 z hz3

theorem qSort_sorted {α : Type} (lt : α → α → Bool)
    (hasymm : ∀ a b, lt a b = true → lt b a = false)
    (hneg : ∀ a b c, lt a b = false → lt b c = false → lt a c = false)
    (l : List α) : (qSort lt l).Pairwise (fun a b => lt b a = false) := by
  induction l with
  | nil => simp [qSort]
  | cons x xs ih =>
    unfold qSort
    exact qSortInsert_sorted lt hasymm hneg x _ ih

/-! ## Facts about the painter and the loop of `paint` -/

theorem QPainter.restore_save {Q : Qt} (p : QPainter Q) : p.save.restore = p := by
  cases p
  rfl

theorem QPainter.restore_setTransform_save {Q : Qt} (p : QPainter Q) (t : Q.QTransform) :
    (p.save.setTransform t).restore = p := by
  cases p
  rfl

theorem paintChildren_painter {Q : Qt} (attrs : ShapeId → KoShape Q)
    (converter : KoViewConverter Q) (baseMatrix : Q.QTransform) (clip : Q.QRectF)
    (l : List ShapeId) (p : QPainter Q) :
    (paintChildren attrs converter baseMatrix clip l p).1 = p := by
  induction l generalizing p with
  | nil => rfl
  | cons s rest ih =>
    unfold paintChildren
    split
    · exact ih p
    · split
      · exact ih p
      · simp only [QPainter.restore_setTransform_save]
        split <;> exact ih p

theorem paintChildren_calls {Q : Qt} (attrs : ShapeId → KoShape Q)
    (converter : KoViewConverter Q) (baseMatrix : Q.QTransform) (clip : Q.QRectF)
    (l : List ShapeId) (p : QPainter Q) :
    (paintChildren attrs converter baseMatrix clip l p).2 =
      l.flatMap (childCalls attrs converter baseMatrix clip) := by
  induction l generalizing p with
  | nil => rfl
  | cons s rest ih =>
    rw [List.flatMap_cons]
    unfold paintChildren
    by_cases hv : (attrs s).isVisible = true
    · by_cases hi : Q.intersects clip (attrs s).boundingRect = true
      · cases hst : (attrs s).stroke with
        | none =>
          have hcc : childCalls attrs converter baseMatrix clip s =
              [PaintCall.shapePaint s
                (Q.mul ((attrs s).absoluteTransformation (some converter)) baseMatrix)] := by
            simp [childCalls, hv, hi, hst]
          rw [hcc]
          simp [hv, hi, ih, QPainter.setTransform]
        | some k =>
          have hcc : childCalls attrs converter baseMatrix clip s =
              [PaintCall.shapePaint s
                (Q.mul ((attrs s).absoluteTransformation (some converter)) baseMatrix),
               PaintCall.strokePaint k s
                (Q.mul ((attrs s).absoluteTransformation (some converter)) baseMatrix)] := by
            simp [childCalls, hv, hi, hst]
          rw [hcc]
          simp [hv, hi, ih, QPainter.setTransform]
      · simp only [Bool.not_eq_true] at hi
        have hcc : childCalls attrs converter baseMatrix clip s = [] := by
          simp [childCalls, hi]
        rw [hcc]
        simp [hv, hi, ih]
    · simp only [Bool.not_eq_true] at hv
      have hcc : childCalls attrs converter baseMatrix clip s = [] := by
        simp [childCalls, hv]
      rw [hcc]
      simp [hv, ih]

theorem child_of_childCalls {Q : Qt} (attrs : ShapeId → KoShape Q)
    (converter : KoViewConverter Q) (baseMatrix : Q.QTransform) (clip : Q.QRectF)
    (s : ShapeId) (e : PaintCall Q) (he : e ∈ childCalls attrs converter baseMatrix clip s) :
    e.child = some s := by
  unfold childCalls at he
  split at he
  · rcases List.mem_cons.mp he with rfl | he
    · rfl
    · split at he
      · simp at he
      · rw [List.mem_singleton] at he
        subst he
        rfl
  · simp at he

theorem callsFor_childCalls_self {Q : Qt} (attrs : ShapeId → KoShape Q)
    (converter : KoViewConverter Q) (baseMatrix : Q.QTransform) (clip : Q.QRectF)
    (s : ShapeId) :
    callsFor s (childCalls attrs converter baseMatrix clip s) =
      childCalls attrs converter baseMatrix clip s := by
  unfold callsFor
  rw [List.filter_eq_self]
  intro e he
  simp [child_of_childCalls attrs converter baseMatrix clip s e he]

theorem callsFor_childCalls_other {Q : Qt} (attrs : ShapeId → KoShape Q)
    (converter : KoViewConverter Q) (baseMatrix : Q.QTransform) (clip : Q.QRectF)
    (s c : ShapeId) (hsc : s ≠ c) :
    callsFor c (childCalls attrs converter baseMatrix clip s) = [] := by
  unfold callsFor
  rw [List.filter_eq_nil_iff]
  intro e he
  simp [child_of_childCalls attrs converter baseMatrix clip s e he, hsc]

theorem callsFor_append {Q : Qt} (c : ShapeId) (a b : List (PaintCall Q)) :
    callsFor c (a ++ b) = callsFor c a ++ callsFor c b := by
  simp [callsFor]

theorem callsFor_flatMap {Q : Qt} (attrs : ShapeId → KoShape Q)
    (converter : KoViewConverter Q) (baseMatrix : Q.QTransform) (clip : Q.QRectF)
    (c : ShapeId) (l : List ShapeId) (hnd : l.Nodup) :
    callsFor c (l.flatMap (childCalls attrs converter baseMatrix clip)) =
      if c ∈ l then childCalls attrs converter baseMatrix clip c else [] := by
  induction l with
  | nil => simp [callsFor]
  | cons s rest ih =>
    rw [List.nodup_cons] at hnd
    rw [List.flatMap_cons, callsFor_append, ih hnd.2]
    by_cases hsc : s = c
    · subst hsc
      simp [callsFor_childCalls_self, hnd.1]
    · rw [callsFor_childCalls_other attrs converter baseMatrix clip s c hsc]
      simp [List.mem_cons, Ne.symm hsc]

theorem paintedShapes_append {Q : Qt} (a b : List (PaintCall Q)) :
    paintedShapes (a ++ b) = paintedShapes a ++ paintedShapes b := by
  induction a with
  | nil => rfl
  | cons e rest ih => cases e <;> simp [paintedShapes, ih]

theorem paintedShapes_flatMap {Q : Qt} (attrs : ShapeId → KoShape Q)
    (converter : KoViewConverter Q) (baseMatrix : Q.QTransform) (clip : Q.QRectF)
    (l : List ShapeId) :
    paintedShapes (l.flatMap (childCalls attrs converter baseMatrix clip)) =
      l.filter (fun s => (attrs s).isVisible && Q.intersects clip (attrs s).boundingRect) := by
  induction l with
  | nil => rfl
  | cons s rest ih =>
    rw [List.flatMap_cons, paintedShapes_append, ih, List.filter_cons]
    unfold childCalls
    split
    · split <;> simp [paintedShapes]
    · simp [paintedShapes]

/-- The calls of `paint` when the container has a model that holds a child. -/
theorem paint_calls {Q : Qt} (h : Heap) (attrs : ShapeId → KoShape Q)
    (lt : ShapeId → ShapeId → Bool) (q : ShapeId) (painter : QPainter Q)
    (converter : KoViewConverter Q) (m : KoShapeContainerModel) (hm : h.model q = some m)
    (hne : m.shapes ≠ []) :
    (paint h attrs lt q painter converter).2 =
      PaintCall.paintComponent q painter.transform ::
        (qSort lt m.shapes).flatMap (childCalls attrs converter
          (Q.mul (Q.inverted ((attrs q).absoluteTransformation (some converter)))
            painter.transform)
          (clipRect (attrs q))) := by
  have hcount : ¬ (m.count = 0) := by
    intro h0
    apply hne
    simp only [KoShapeContainerModel.count, List.length_eq_zero] at h0
    simp [KoShapeContainerModel.shapes, h0]
  unfold paint
  simp only [hm, hcount, if_false, QPainter.restore_save, paintChildren_calls]
  rfl

/-- The calls of `paint` when the container has no model or no child. -/
theorem paint_calls_empty {Q : Qt} (h : Heap) (attrs : ShapeId → KoShape Q)
    (lt : ShapeId → ShapeId → Bool) (q : ShapeId) (painter : QPainter Q)
    (converter : KoViewConverter Q) (hq : shapes h q = []) :
    (paint h attrs lt q painter converter).2 =
      [PaintCall.paintComponent q painter.transform] := by
  unfold paint
  unfold shapes at hq
  cases hm : h.model q with
  | none => rfl
  | some m =>
    rw [hm] at hq
    have hcount : m.count = 0 := by
      simp only [KoShapeContainerModel.shapes, List.map_eq_nil_iff] at hq
      simp [KoShapeContainerModel.count, hq]
    simp [hcount]
    rfl

end KoFlake

namespace KoFlake

/-! ## Claims on `paint` -/

/-- C2 (painting visits children in ascending z-index order): for a comparator
`compareShapeZIndex` that is a strict weak ordering (asymmetric, and with a transitive
"not below"), on every container and for every order in which the model lists its
children, the children whose `paint` is called by one call of
`KoShapeContainer::paint` appear in call order such that a child painted later never
compares strictly below a child painted earlier. -/
theorem paint_children_ascending {Q : Qt} (h : Heap) (attrs : ShapeId → KoShape Q)
    (compareShapeZIndex : ShapeId → ShapeId → Bool) (q : ShapeId) (painter : QPainter Q)
    (converter : KoViewConverter Q)
    (hasymm : ∀ a b, compareShapeZIndex a b = true → compareShapeZIndex b a = false)
    (hneg : ∀ a b c, compareShapeZIndex a b = false → compareShapeZIndex b c = false →
      compareShapeZIndex a c = false) :
    (paintedShapes (paint h attrs compareShapeZIndex q painter converter).2).Pairwise
      (fun a b => compareShapeZIndex b a = false) := by
  cases hm : h.model q with
  | none =>
    rw [paint_calls_empty h attrs compareShapeZIndex q painter converter (by simp [shapes, hm])]
    simp [paintedShapes]
  | some m =>
    by_cases hne : m.shapes = []
    · rw [paint_calls_empty h attrs compareShapeZIndex q painter converter
        (by simp [shapes, hm, hne])]
      simp [paintedShapes]
    · rw [paint_calls h attrs compareShapeZIndex q painter converter m hm hne]
      simp only [paintedShapes, paintedShapes_flatMap]
      exact (qSort_sorted compareShapeZIndex hasymm hneg m.shapes).filter _

/-- Witness of C2 on the scene: children 1 (z-index 2) and 2 (z-index 1) are painted,
child 2 first. -/
theorem paint_children_ascending_witness :
    (∀ a b, sceneCompare a b = true → sceneCompare b a = false) ∧
    (∀ a b c, sceneCompare a b = false → sceneCompare b c = false →
      sceneCompare a c = false) ∧
    paintedShapes (paint sceneHeap sceneAttrs sceneCompare 0 scenePainter sceneConverter).2
      = [2, 1] ∧
    (paintedShapes (paint sceneHeap sceneAttrs sceneCompare 0 scenePainter
      sceneConverter).2).Pairwise (fun a b => sceneCompare b a = false) :=
  ⟨fun a b hab => by simp only [sceneCompare, decide_eq_true_eq, decide_eq_false_iff_not] at *; omega,
   fun a b c hab hbc => by
    simp only [sceneCompare, decide_eq_false_iff_not] at *; omega,
   by decide,
   paint_children_ascending sceneHeap sceneAttrs sceneCompare 0 scenePainter sceneConverter
    (fun a b hab => by
      simp only [sceneCompare, decide_eq_true_eq, decide_eq_false_iff_not] at *; omega)
    (fun a b c hab hbc => by
      simp only [sceneCompare, decide_eq_false_iff_not] at *; omega)⟩

/-- C3 (children outside the clip rectangle, and hidden children, are skipped): when
the model of container `q` lists each child once, the calls that one call of
`KoShapeContainer::paint` makes for a child `c` of the container are: none, when `c`
is not visible or its bounding rectangle does not intersect `clipRect`; else exactly
one `paint` of `c`, followed by exactly one `paint` of its stroke when it has a stroke
and by nothing when it has none. -/
theorem paint_calls_per_child {Q : Qt} (h : Heap) (attrs : ShapeId → KoShape Q)
    (compareShapeZIndex : ShapeId → ShapeId → Bool) (q : ShapeId) (painter : QPainter Q)
    (converter : KoViewConverter Q) (m : KoShapeContainerModel)
    (hm : h.model q = some m) (hnd : m.shapes.Nodup) (c : ShapeId) (hc : c ∈ m.shapes) :
    callsFor c (paint h attrs compareShapeZIndex q painter converter).2 =
      if (attrs c).isVisible = true ∧
          Q.intersects (clipRect (attrs q)) (attrs c).boundingRect = true then
        PaintCall.shapePaint c
            (Q.mul ((attrs c).absoluteTransformation (some converter))
              (Q.mul (Q.inverted ((attrs q).absoluteTransformation (some converter)))
                painter.transform)) ::
          (match (attrs c).stroke with
           | none => []
           | some k => [PaintCall.strokePaint k c
              (Q.mul ((attrs c).absoluteTransformation (some converter))
                (Q.mul (Q.inverted ((attrs q).absoluteTransformation (some converter)))
                  painter.transform))])
      else [] := by
  have hne : m.shapes ≠ [] := List.ne_nil_of_mem hc
  rw [paint_calls h attrs compareShapeZIndex q painter converter m hm hne]
  have hperm := qSort_perm compareShapeZIndex m.shapes
  have hhead : callsFor c (PaintCall.paintComponent q painter.transform ::
      (qSort compareShapeZIndex m.shapes).flatMap (childCalls attrs converter
        (Q.mul (Q.inverted ((attrs q).absoluteTransformation (some converter)))
          painter.transform) (clipRect (attrs q)))) =
      callsFor c ((qSort compareShapeZIndex m.shapes).flatMap (childCalls attrs converter
        (Q.mul (Q.inverted ((attrs q).absoluteTransformation (some converter)))
          painter.transform) (clipRect (attrs q)))) := by
    simp [callsFor, PaintCall.child]
  rw [hhead, callsFor_flatMap _ _ _ _ _ _ (hperm.nodup_iff.mpr hnd)]
  rw [if_pos (hperm.mem_iff.mpr hc)]
  unfold childCalls
  simp only [Bool.and_eq_true]

/-- Witness of C3 on the scene: child 1 is visible, lies inside the outline and has
stroke 7. -/
theorem paint_calls_per_child_witness :
    sceneHeap.model 0 = some ⟨[(1, exFlags), (2, exFlags), (3, exFlags), (4, exFlags)]⟩ ∧
    (KoShapeContainerModel.shapes
      ⟨[(1, exFlags), (2, exFlags), (3, exFlags), (4, exFlags)]⟩).Nodup ∧
    1 ∈ KoShapeContainerModel.shapes
      ⟨[(1, exFlags), (2, exFlags), (3, exFlags), (4, exFlags)]⟩ ∧
    callsFor 1 (paint sceneHeap sceneAttrs sceneCompare 0 scenePainter sceneConverter).2 =
      if (sceneAttrs 1).isVisible = true ∧
          translationQt.intersects (clipRect (sceneAttrs 0)) (sceneAttrs 1).boundingRect = true
      then
        PaintCall.shapePaint 1
            (translationQt.mul ((sceneAttrs 1).absoluteTransformation (some sceneConverter))
              (translationQt.mul
                (translationQt.inverted
                  ((sceneAttrs 0).absoluteTransformation (some sceneConverter)))
                scenePainter.transform)) ::
          (match (sceneAttrs 1).stroke with
           | none => []
           | some k => [PaintCall.strokePaint k 1
              (translationQt.mul ((sceneAttrs 1).absoluteTransformation (some sceneConverter))
                (translationQt.mul
                  (translationQt.inverted
                    ((sceneAttrs 0).absoluteTransformation (some sceneConverter)))
                  scenePainter.transform))])
      else [] :=
  ⟨rfl, by decide, by decide,
   paint_calls_per_child sceneHeap sceneAttrs sceneCompare 0 scenePainter sceneConverter
    ⟨[(1, exFlags), (2, exFlags), (3, exFlags), (4, exFlags)]⟩ rfl (by decide) 1 (by decide)⟩

/-- Counterexample to C4 as stated, on the scene: the painter is clipped to the
rectangle 10 x 10 at the origin, so `toPaintRect` is that rectangle; child 1 is
visible and its bounding rectangle (10 x 10 at (50, 50)) does not intersect
`toPaintRect`, yet `paint` of child 1 is called, because the rectangle lies inside
`clipRect`, the bounding rectangle of the outline of the container. -/
theorem paint_toPaintRect_counterexample :
    (sceneAttrs 1).isVisible = true ∧ 1 ∈ shapes sceneHeap 0 ∧
    paintToPaintRect sceneAttrs 0 scenePainter sceneConverter = ⟨0, 0, 10, 10⟩ ∧
    translationQt.intersects (paintToPaintRect sceneAttrs 0 scenePainter sceneConverter)
      (sceneAttrs 1).boundingRect = false ∧
    1 ∈ paintedShapes
      (paint sceneHeap sceneAttrs sceneCompare 0 scenePainter sceneConverter).2 := by
  refine ⟨by decide, by decide, ?_, by decide, by decide⟩
  exact @of_decide_eq_true _ (instDecidableEqIRect _ _) rfl

/-- C4, amended: the rectangle against which `KoShapeContainer::paint` tests the
bounding rectangle of each child is `clipRect`, the bounding rectangle of the outline
of the container mapped through `absoluteTransformation(0)`: a visible child is
painted iff its bounding rectangle intersects `clipRect`.  The clip of the painter,
from which `toPaintRect` is computed, has no influence on the calls made. -/
theorem paint_tests_clipRect {Q : Qt} (h : Heap) (attrs : ShapeId → KoShape Q)
    (compareShapeZIndex : ShapeId → ShapeId → Bool) (q : ShapeId) (painter : QPainter Q)
    (converter : KoViewConverter Q) (m : KoShapeContainerModel)
    (hm : h.model q = some m) (c : ShapeId) (hc : c ∈ m.shapes)
    (hvis : (attrs c).isVisible = true) :
    (c ∈ paintedShapes (paint h attrs compareShapeZIndex q painter converter).2 ↔
      Q.intersects (clipRect (attrs q)) (attrs c).boundingRect = true) ∧
    (∀ clip : Q.Clip,
      (paint h attrs compareShapeZIndex q { painter with clip := clip } converter).2 =
        (paint h attrs compareShapeZIndex q painter converter).2) := by
  have hne : m.shapes ≠ [] := List.ne_nil_of_mem hc
  constructor
  · rw [paint_calls h attrs compareShapeZIndex q painter converter m hm hne]
    simp only [paintedShapes, paintedShapes_flatMap, List.mem_filter, Bool.and_eq_true]
    constructor
    · intro hx
      exact hx.2.2
    · intro hx
      exact ⟨(qSort_perm compareShapeZIndex m.shapes).mem_iff.mpr hc, hvis, hx⟩
  · intro clip
    rw [paint_calls h attrs compareShapeZIndex q painter converter m hm hne,
      paint_calls h attrs compareShapeZIndex q _ converter m hm hne]

/-- Witness of the amended C4 on the scene, at child 1. -/
theorem paint_tests_clipRect_witness :
    sceneHeap.model 0 = some ⟨[(1, exFlags), (2, exFlags), (3, exFlags), (4, exFlags)]⟩ ∧
    1 ∈ KoShapeContainerModel.shapes
      ⟨[(1, exFlags), (2, exFlags), (3, exFlags), (4, exFlags)]⟩ ∧
    (sceneAttrs 1).isVisible = true ∧
    ((1 ∈ paintedShapes
        (paint sceneHeap sceneAttrs sceneCompare 0 scenePainter sceneConverter).2 ↔
      translationQt.intersects (clipRect (sceneAttrs 0)) (sceneAttrs 1).boundingRect = true) ∧
    (∀ clip : translationQt.Clip,
      (paint sceneHeap sceneAttrs sceneCompare 0 { scenePainter with clip := clip }
        sceneConverter).2 =
        (paint sceneHeap sceneAttrs sceneCompare 0 scenePainter sceneConverter).2)) :=
  ⟨rfl, by decide, by decide,
   paint_tests_clipRect sceneHeap sceneAttrs sceneCompare 0 scenePainter sceneConverter
    ⟨[(1, exFlags), (2, exFlags), (3, exFlags), (4, exFlags)]⟩ rfl 1 (by decide) (by decide)⟩

end KoFlake

namespace KoFlake

/-! ## Facts about the container model -/

theorem KoShapeContainerModel.mem_shapes_remove (m : KoShapeContainerModel) (s x : ShapeId) :
    x ∈ (m.remove s).shapes ↔ x ∈ m.shapes ∧ x ≠ s := by
  simp only [KoShapeContainerModel.shapes, KoShapeContainerModel.remove, List.mem_map,
    List.mem_filter, bne_iff_ne, ne_eq]
  constructor
  · rintro ⟨e, ⟨he, hne⟩, rfl⟩
    exact ⟨⟨e, he, rfl⟩, hne⟩
  · rintro ⟨⟨e, he, rfl⟩, hne⟩
    exact ⟨e, ⟨he, hne⟩, rfl⟩

theorem KoShapeContainerModel.mem_shapes_add (m : KoShapeContainerModel) (s x : ShapeId) :
    x ∈ (m.add s).shapes ↔ x ∈ m.shapes ∨ x = s := by
  unfold KoShapeContainerModel.add
  split
  · rename_i hs
    constructor
    · exact Or.inl
    · rintro (hx | rfl)
      · exact hx
      · exact hs
  · simp [KoShapeContainerModel.shapes]

theorem Heap.setModel_model_self (h : Heap) (q : ShapeId) (m : Option KoShapeContainerModel) :
    (h.setModel q m).model q = m := by
  simp [Heap.setModel]

theorem Heap.setModel_model_other (h : Heap) (q x : ShapeId)
    (m : Option KoShapeContainerModel) (hx : x ≠ q) :
    (h.setModel q m).model x = h.model x := by
  simp [Heap.setModel, hx]

theorem Heap.setModel_parent (h : Heap) (q : ShapeId) (m : Option KoShapeContainerModel) :
    (h.setModel q m).parent = h.parent := rfl

/-- What `removeShape` does when its three preconditions hold and the parent of the
container, if there is one, has a model. -/
theorem removeShape_ok (h : Heap) (q s : ShapeId) (m : KoShapeContainerModel)
    (hm : h.model q = some m) (hs : s ∈ m.shapes)
    (hg : ∀ x, h.parent q = some x → x ≠ q → (h.model x).isSome = true) :
    removeShape h q (some s) =
      some (h.setModel q (some (m.remove s)),
        Call.modelRemove q s ::
          (match h.parent q with
           | none => []
           | some x => [Call.childChanged x q ChangeType.ChildChanged])) := by
  unfold removeShape
  have hc : m.shapes.contains s = true := by simpa using hs
  simp only [hm, hc, Bool.not_true, Bool.false_eq_true, if_false, Heap.setModel_parent]
  cases hp : h.parent q with
  | none => rfl
  | some x =>
    by_cases hxq : x = q
    · subst hxq
      simp [Heap.setModel_model_self]
    · have hx := hg x hp hxq
      cases hmx : h.model x with
      | none => simp [hmx] at hx
      | some mx => simp [Heap.setModel_model_other _ _ _ _ hxq, hmx]

end KoFlake

namespace KoFlake

/-! ## Claims on the queries, `shapeChanged` and the shape interface -/

/-- Witness of C1: container 20 of the object graph has no model. -/
theorem null_model_queries_witness :
    exHeap.model 20 = none ∧
    (shapeCount exHeap 20 = 0 ∧ isChildLocked exHeap 20 (some 1) = false ∧
      isClipped exHeap 20 (some 1) = false ∧ inheritsTransform exHeap 20 (some 1) = false ∧
      shapes exHeap 20 = []) :=
  ⟨rfl, null_model_queries exHeap 20 rfl (some 1)⟩

/-- C5 (removing a shape notifies the grandparent exactly once): when container `q`
has a model that holds shape `s`, and the parent of `q`, if there is one, has a
model, `ShapeInterface::removeShape(s)` returns after exactly the calls
`model->remove(s)` on the model of `q` and then, when `q` has a parent `g`, one
`childChanged(q, ChildChanged)` on the model of `g`; when `q` has no parent the only
call is `model->remove(s)`.  After the call `s` is not in the model of `q`, the other
children of `q` still are, and every other container keeps its model. -/
theorem removeShape_notifies_grandparent (h : Heap) (q s : ShapeId)
    (m : KoShapeContainerModel) (g : Option ShapeId)
    (hm : h.model q = some m) (hs : s ∈ m.shapes) (hp : h.parent q = g)
    (hg : ∀ x, g = some x → (h.model x).isSome = true) :
    ∃ h1, removeShape h q (some s) =
        some (h1, Call.modelRemove q s ::
          (match g with
           | none => []
           | some x => [Call.childChanged x q ChangeType.ChildChanged])) ∧
      s ∉ shapes h1 q ∧ (∀ x, x ∈ m.shapes → x ≠ s → x ∈ shapes h1 q) ∧
      (∀ x, x ≠ q → h1.model x = h.model x) ∧ h1.parent = h.parent := by
  refine ⟨h.setModel q (some (m.remove s)), ?_, ?_, ?_, ?_, rfl⟩
  · rw [removeShape_ok h q s m hm hs (fun x hx _ => hg x (hp ▸ hx)), hp]
  · simp [shapes, Heap.setModel_model_self, KoShapeContainerModel.mem_shapes_remove]
  · intro x hx hxs
    simp [shapes, Heap.setModel_model_self, KoShapeContainerModel.mem_shapes_remove, hx, hxs]
  · intro x hx
    exact Heap.setModel_model_other h q x _ hx

/-- Witness of C5: shape 1 leaves container 11, whose parent is container 10. -/
theorem removeShape_notifies_grandparent_witness :
    exHeap.model 11 = some ⟨[(1, exFlags), (2, exFlags)]⟩ ∧
    1 ∈ KoShapeContainerModel.shapes ⟨[(1, exFlags), (2, exFlags)]⟩ ∧
    exHeap.parent 11 = some 10 ∧
    (∀ x, some 10 = some x → (exHeap.model x).isSome = true) ∧
    ∃ h1, removeShape exHeap 11 (some 1) =
        some (h1, [Call.modelRemove 11 1, Call.childChanged 10 11 ChangeType.ChildChanged]) ∧
      1 ∉ shapes h1 11 ∧
      (∀ x, x ∈ KoShapeContainerModel.shapes ⟨[(1, exFlags), (2, exFlags)]⟩ → x ≠ 1 →
        x ∈ shapes h1 11) ∧
      (∀ x, x ≠ 11 → h1.model x = exHeap.model x) ∧ h1.parent = exHeap.parent :=
  ⟨rfl, by decide, rfl, fun x hx => by cases hx; rfl,
   removeShape_notifies_grandparent exHeap 11 1 ⟨[(1, exFlags), (2, exFlags)]⟩ (some 10)
    rfl (by decide) rfl (fun x hx => by cases hx; rfl)⟩

/-- C6 (recover and return on a violated precondition): when the shape is null, or
container `q` has no model, or the model of `q` does not hold the shape,
`ShapeInterface::removeShape` returns with the heap as it was, and the only thing it
did is the report of the failed assertion: no `model->remove` and no `childChanged`
is among its calls. -/
theorem removeShape_recovers (h : Heap) (q : ShapeId) (shape : Option ShapeId)
    (hbad : shape = none ∨ h.model q = none ∨
      ∃ s m, shape = some s ∧ h.model q = some m ∧ s ∉ m.shapes) :
    removeShape h q shape = some (h, [Call.safeAssertFailed]) ∧
    ∀ h1 tr, removeShape h q shape = some (h1, tr) →
      h1.model = h.model ∧ (∀ a b, Call.modelRemove a b ∉ tr) ∧
        (∀ a b t, Call.childChanged a b t ∉ tr) := by
  have key : removeShape h q shape = some (h, [Call.safeAssertFailed]) := by
    unfold removeShape
    rcases hbad with rfl | hmq | ⟨s, m, rfl, hmq, hs⟩
    · rfl
    · cases shape with
      | none => rfl
      | some s => simp [hmq]
    · have hc : m.shapes.contains s = false := by simpa using hs
      simp only [hmq, hc, Bool.not_false, if_true]
  refine ⟨key, ?_⟩
  intro h1 tr hr
  rw [key] at hr
  simp only [Option.some.injEq, Prod.mk.injEq] at hr
  obtain ⟨rfl, rfl⟩ := hr
  simp

/-- Witness of C6: shape 3 is not in the model of container 11. -/
theorem removeShape_recovers_witness :
    ((some 3 : Option ShapeId) = none ∨ exHeap.model 11 = none ∨
      ∃ s m, (some 3 : Option ShapeId) = some s ∧ exHeap.model 11 = some m ∧ s ∉ m.shapes) ∧
    (removeShape exHeap 11 (some 3) = some (exHeap, [Call.safeAssertFailed]) ∧
      ∀ h1 tr, removeShape exHeap 11 (some 3) = some (h1, tr) →
        h1.model = exHeap.model ∧ (∀ a b, Call.modelRemove a b ∉ tr) ∧
          (∀ a b t, Call.childChanged a b t ∉ tr)) :=
  ⟨Or.inr (Or.inr ⟨3, ⟨[(1, exFlags), (2, exFlags)]⟩, rfl, rfl, by decide⟩),
   removeShape_recovers exHeap 11 (some 3)
    (Or.inr (Or.inr ⟨3, ⟨[(1, exFlags), (2, exFlags)]⟩, rfl, rfl, by decide⟩))⟩

/-- C7 (`shapeChanged` forwards geometric changes): on a container `q` with a model,
`shapeChanged(t, shape)` makes exactly the calls `model->containerChanged(q, t)` once
and then `notifyChanged()` on every shape of `model->shapes()`, in that order, when
`t` is one of RotationChanged, ScaleChanged, ShearChanged, SizeChanged,
PositionChanged, GenericMatrixChange; for every other `t`, and for every `t` when the
model is null, it makes no call.  The calls do not depend on the `shape` argument. -/
theorem shapeChanged_calls (h : Heap) (q : ShapeId) (t : ChangeType)
    (shape : Option ShapeId) :
    (∀ m, h.model q = some m →
      (t = ChangeType.RotationChanged ∨ t = ChangeType.ScaleChanged ∨
        t = ChangeType.ShearChanged ∨ t = ChangeType.SizeChanged ∨
        t = ChangeType.PositionChanged ∨ t = ChangeType.GenericMatrixChange) →
      shapeChanged h q t shape =
        Call.containerChanged q t :: m.shapes.map Call.notifyChanged) ∧
    ((h.model q = none ∨
      ¬ (t = ChangeType.RotationChanged ∨ t = ChangeType.ScaleChanged ∨
        t = ChangeType.ShearChanged ∨ t = ChangeType.SizeChanged ∨
        t = ChangeType.PositionChanged ∨ t = ChangeType.GenericMatrixChange)) →
      shapeChanged h q t shape = []) ∧
    (∀ other : Option ShapeId, shapeChanged h q t other = shapeChanged h q t shape) := by
  refine ⟨?_, ?_, fun _ => rfl⟩
  · intro m hm ht
    have hgeo : isGeometryChange t = true := by
      rcases ht with rfl | rfl | rfl | rfl | rfl | rfl <;> rfl
    simp [shapeChanged, hm, hgeo]
  · rintro (hm | ht)
    · simp [shapeChanged, hm]
    · have hgeo : isGeometryChange t = false := by
        cases t <;> first | rfl | (exfalso; apply ht; simp)
      cases hm : h.model q <;> simp [shapeChanged, hgeo, hm]

/-- Witness of C7: a size change on container 11, which holds the shapes 1 and 2, and a
change of another kind. -/
theorem shapeChanged_calls_witness :
    shapeChanged exHeap 11 ChangeType.SizeChanged (some 1) =
      [Call.containerChanged 11 ChangeType.SizeChanged, Call.notifyChanged 1,
       Call.notifyChanged 2] ∧
    shapeChanged exHeap 11 ChangeType.ChildChanged (some 1) = [] :=
  ⟨(shapeChanged_calls exHeap 11 ChangeType.SizeChanged (some 1)).1
      ⟨[(1, exFlags), (2, exFlags)]⟩ rfl (Or.inr (Or.inr (Or.inr (Or.inl rfl)))),
   (shapeChanged_calls exHeap 11 ChangeType.ChildChanged (some 1)).2.1
      (Or.inr (by decide))⟩

end KoFlake

namespace KoFlake

/-- C8 (a shape is held by at most one model; reparenting detaches first): on
container `q` and shape `s`,
* when the parent `p` of `s` is another container whose model holds `s` (and the
  parent of `p`, if it is neither `q` nor absent, has a model),
  `ShapeInterface::addShape(s)` returns after the calls: a new model for `q` when `q`
  had none, first; then `model->remove(s)` on the model of `p` with the notification
  of the parent of `p`; then, last, `model->add(s)` on the model of `q`.  After the call
  `s` is in the model of `q` and not in the model of `p`, and every container other
  than `p` and `q` keeps its model;
* when `s` has no parent, the calls are the new model for `q` when `q` had none, then
  `model->add(s)`, and `s` is in the model of `q` after the call;
* when the parent of `s` is `q` and `s` is in `q->shapes()`, the call changes nothing
  and makes no call. -/
theorem addShape_reparents (h : Heap) (q s : ShapeId) :
    (∀ p mp, h.parent s = some p → p ≠ q → h.model p = some mp → s ∈ mp.shapes →
      (∀ g, h.parent p = some g → g ≠ q → (h.model g).isSome = true) →
      ∃ h1, addShape h q (some s) =
          some (h1,
            (match h.model q with
             | none => [Call.newModel q]
             | some _ => []) ++
            (Call.modelRemove p s ::
              (match h.parent p with
               | none => []
               | some g => [Call.childChanged g p ChangeType.ChildChanged])) ++
            [Call.modelAdd q s]) ∧
        s ∈ shapes h1 q ∧ s ∉ shapes h1 p ∧
        (∀ x, x ∈ shapes h q → x ∈ shapes h1 q) ∧
        (∀ x, x ≠ q → x ≠ p → h1.model x = h.model x) ∧ h1.parent = h.parent) ∧
    (h.parent s = none →
      ∃ h1, addShape h q (some s) =
          some (h1,
            (match h.model q with
             | none => [Call.newModel q]
             | some _ => []) ++ [Call.modelAdd q s]) ∧
        s ∈ shapes h1 q ∧ (∀ x, x ≠ q → h1.model x = h.model x) ∧ h1.parent = h.parent) ∧
    (h.parent s = some q → s ∈ shapes h q → addShape h q (some s) = some (h, [])) := by
  refine ⟨?_, ?_, ?_⟩
  · intro p mp hpar hpq hmp hsp hg
    have hguard : (h.parent s = some q && (shapes h q).contains s) = false := by
      simp [hpar, hpq]
    cases hmq : h.model q with
    | none =>
      have hm1 : (h.setModel q (some KoShapeContainerModel.empty)).model p = some mp := by
        rw [Heap.setModel_model_other _ _ _ _ hpq, hmp]
      have hg1 : ∀ x, (h.setModel q (some KoShapeContainerModel.empty)).parent p = some x →
          x ≠ p → ((h.setModel q (some KoShapeContainerModel.empty)).model x).isSome = true := by
        intro x hx _
        by_cases hxq : x = q
        · subst hxq
          simp [Heap.setModel_model_self]
        · rw [Heap.setModel_model_other _ _ _ _ hxq]
          exact hg x hx hxq
      have hrem := removeShape_ok _ p s mp hm1 hsp hg1
      refine ⟨((h.setModel q (some KoShapeContainerModel.empty)).setModel p
          (some (mp.remove s))).setModel q (some (KoShapeContainerModel.empty.add s)),
        ?_, ?_, ?_, ?_, ?_, rfl⟩
      · unfold addShape
        simp only [hguard, Bool.false_eq_true, if_false, hmq, Heap.setModel_parent, hpar, hpq,
          ne_eq, not_false_eq_true, if_true, hrem,
          Heap.setModel_model_other _ p q _ (Ne.symm hpq), Heap.setModel_model_self]
        simp [hpq]
      · simp [shapes, Heap.setModel_model_self, KoShapeContainerModel.mem_shapes_add]
      · simp [shapes, Heap.setModel_model_other _ q p _ hpq, Heap.setModel_model_self,
          KoShapeContainerModel.mem_shapes_remove]
      · intro x hx
        simp [shapes, hmq] at hx
      · intro x hxq hxp
        rw [Heap.setModel_model_other _ _ _ _ hxq, Heap.setModel_model_other _ _ _ _ hxp,
          Heap.setModel_model_other _ _ _ _ hxq]
    | some m0 =>
      have hg1 : ∀ x, h.parent p = some x → x ≠ p → (h.model x).isSome = true := by
        intro x hx _
        by_cases hxq : x = q
        · subst hxq
          simp [hmq]
        · exact hg x hx hxq
      have hrem := removeShape_ok h p s mp hmp hsp hg1
      refine ⟨(h.setModel p (some (mp.remove s))).setModel q (some (m0.add s)),
        ?_, ?_, ?_, ?_, ?_, rfl⟩
      · unfold addShape
        simp only [hguard, Bool.false_eq_true, if_false, hmq, hpar, hpq,
          ne_eq, not_false_eq_true, if_true, hrem,
          Heap.setModel_model_other _ p q _ (Ne.symm hpq)]
        simp [hpq]
      · simp [shapes, Heap.setModel_model_self, KoShapeContainerModel.mem_shapes_add]
      · simp [shapes, Heap.setModel_model_other _ q p _ hpq, Heap.setModel_model_self,
          KoShapeContainerModel.mem_shapes_remove]
      · intro x hx
        simp only [shapes, hmq] at hx
        simp [shapes, Heap.setModel_model_self, KoShapeContainerModel.mem_shapes_add, hx]
      · intro x hxq hxp
        rw [Heap.setModel_model_other _ _ _ _ hxq, Heap.setModel_model_other _ _ _ _ hxp]
  · intro hpar
    have hguard : (h.parent s = some q && (shapes h q).contains s) = false := by
      simp [hpar]
    cases hmq : h.model q with
    | none =>
      refine ⟨(h.setModel q (some KoShapeContainerModel.empty)).setModel q
          (some (KoShapeContainerModel.empty.add s)), ?_, ?_, ?_, rfl⟩
      · unfold addShape
        simp only [hguard, Bool.false_eq_true, if_false, hmq, Heap.setModel_parent, hpar,
          Heap.setModel_model_self]
        simp
      · simp [shapes, Heap.setModel_model_self, KoShapeContainerModel.mem_shapes_add]
      · intro x hxq
        rw [Heap.setModel_model_other _ _ _ _ hxq, Heap.setModel_model_other _ _ _ _ hxq]
    | some m0 =>
      refine ⟨h.setModel q (some (m0.add s)), ?_, ?_, ?_, rfl⟩
      · unfold addShape
        simp only [hguard, Bool.false_eq_true, if_false, hmq, hpar]
        simp
      · simp [shapes, Heap.setModel_model_self, KoShapeContainerModel.mem_shapes_add]
      · intro x hxq
        rw [Heap.setModel_model_other _ _ _ _ hxq]
  · intro hpar hs
    unfold addShape
    simp [hpar, hs]

/-- Witness of C8: shape 3, held by container 12, is added to container 11, and to
container 20, which has no model; shape 1 is added again to its container 11. -/
theorem addShape_reparents_witness :
    (∃ h1, addShape exHeap 11 (some 3) =
        some (h1, [Call.modelRemove 12 3, Call.childChanged 10 12 ChangeType.ChildChanged,
          Call.modelAdd 11 3]) ∧
      3 ∈ shapes h1 11 ∧ 3 ∉ shapes h1 12) ∧
    (∃ h1, addShape exHeap 20 (some 3) =
        some (h1, [Call.newModel 20, Call.modelRemove 12 3,
          Call.childChanged 10 12 ChangeType.ChildChanged, Call.modelAdd 20 3]) ∧
      3 ∈ shapes h1 20 ∧ 3 ∉ shapes h1 12) ∧
    addShape exHeap 11 (some 1) = some (exHeap, []) := by
  refine ⟨?_, ?_, ?_⟩
  · obtain ⟨h1, hr, hq, hp, _⟩ := (addShape_reparents exHeap 11 3).1 12 ⟨[(3, exFlags)]⟩
      rfl (by decide) rfl (by decide) (fun g hg _ => by cases hg; rfl)
    exact ⟨h1, hr, hq, hp⟩
  · obtain ⟨h1, hr, hq, hp, _⟩ := (addShape_reparents exHeap 20 3).1 12 ⟨[(3, exFlags)]⟩
      rfl (by decide) rfl (by decide) (fun g hg _ => by cases hg; rfl)
    exact ⟨h1, hr, hq, hp⟩
  · exact (addShape_reparents exHeap 11 1).2.2 rfl (by decide)

end KoFlake

namespace KisLinkedResourcesOperators

/-! ## Claims on the resources snapshot -/

/-- C9 (`hasLocalResourcesSnapshot` is false on a live interface and true after
`createLocalResourcesSnapshot`): `hasLocalResourcesSnapshot(object)` is true iff the
resources interface of the object is a local storage; it is false for an object bound
to a live interface; and after `createLocalResourcesSnapshot(object, g)`, for a null or
non-null `g`, the object is bound to the store that `createLocalResourcesStorage`
built from the resources linked through `g` (through its own interface when `g` is
null), so the query is true. -/
theorem hasLocalResourcesSnapshot_after_create (object : Object)
    (g : KisResourcesInterfaceSP) :
    (hasLocalResourcesSnapshot object = true ↔
      ∃ rs, object.resourcesInterface = some (KisResourcesInterface.localStorage rs)) ∧
    (∀ r, object.resourcesInterface = some (KisResourcesInterface.live r) →
      hasLocalResourcesSnapshot object = false) ∧
    hasLocalResourcesSnapshot (createLocalResourcesSnapshot object g).1 = true ∧
    (createLocalResourcesSnapshot object g).1.resourcesInterface =
      detail.createLocalResourcesStorage
        (object.linkedResources (if g.isSome then g else object.resourcesInterface)) ∧
    (createLocalResourcesSnapshot object g).1.linkedResources = object.linkedResources := by
  refine ⟨?_, ?_, rfl, ?_, rfl⟩
  · unfold hasLocalResourcesSnapshot
    cases hri : object.resourcesInterface with
    | none => simp [detail.isLocalResourcesStorage]
    | some i => cases i <;> simp [detail.isLocalResourcesStorage]
  · intro r hr
    simp [hasLocalResourcesSnapshot, hr, detail.isLocalResourcesStorage]
  · cases g <;> rfl

/-- Witness of C9: the object bound to the live registry has no snapshot before and
has the snapshot of its linked resources after. -/
theorem hasLocalResourcesSnapshot_after_create_witness :
    hasLocalResourcesSnapshot exObject = false ∧
    hasLocalResourcesSnapshot (createLocalResourcesSnapshot exObject none).1 = true ∧
    (createLocalResourcesSnapshot exObject none).1.resourcesInterface =
      some (KisResourcesInterface.localStorage [4, 5]) :=
  ⟨(hasLocalResourcesSnapshot_after_create exObject none).2.1 0 rfl,
   (hasLocalResourcesSnapshot_after_create exObject none).2.2.1,
   (hasLocalResourcesSnapshot_after_create exObject none).2.2.2.1⟩

/-- C10 (`cloneWithResourcesSnapshot` is idempotent): the result `r` of
`cloneWithResourcesSnapshot(object, g)` has a local resources snapshot; the call on `r`
(for any override `g2`) makes the single call `clone`, so no `linkedResources`, no
`createLocalResourcesStorage` and no `setResourcesInterface`, and returns an object
with the same resources interface, and the same linked resources, as `r`. -/
theorem cloneWithResourcesSnapshot_idempotent (object : Object)
    (g g2 : KisResourcesInterfaceSP) :
    hasLocalResourcesSnapshot (cloneWithResourcesSnapshot object g).1 = true ∧
    (cloneWithResourcesSnapshot (cloneWithResourcesSnapshot object g).1 g2).2 =
      [Call.clone] ∧
    (cloneWithResourcesSnapshot (cloneWithResourcesSnapshot object g).1 g2).1 =
      (cloneWithResourcesSnapshot object g).1 := by
  have hfirst : hasLocalResourcesSnapshot (cloneWithResourcesSnapshot object g).1 = true := by
    unfold cloneWithResourcesSnapshot
    by_cases hl : hasLocalResourcesSnapshot object.clone = true
    · simp [hl]
    · simp only [Bool.not_eq_true] at hl
      have hc : hasLocalResourcesSnapshot
          (createLocalResourcesSnapshot object.clone g).1 = true := rfl
      simp [hl, hc]
  have hsecond : ∀ r : Object, hasLocalResourcesSnapshot r = true →
      cloneWithResourcesSnapshot r g2 = (r, [Call.clone]) := by
    intro r hr
    unfold cloneWithResourcesSnapshot
    have hr2 : hasLocalResourcesSnapshot r.clone = true := hr
    simp only [hr2, Bool.not_true, Bool.false_eq_true, if_false]
    rfl
  refine ⟨hfirst, ?_, ?_⟩
  · rw [hsecond _ hfirst]
  · rw [hsecond _ hfirst]

/-- Witness of C10: the first call on the live object materializes the resources 4 and
5 once, the second call on its result only clones. -/
theorem cloneWithResourcesSnapshot_idempotent_witness :
    (cloneWithResourcesSnapshot exObject none).2 =
      [Call.clone, Call.assertInGuiThread,
       Call.linkedResources (some (KisResourcesInterface.live 0)),
       Call.createLocalResourcesStorage [4, 5],
       Call.setResourcesInterface (some (KisResourcesInterface.localStorage [4, 5]))] ∧
    (cloneWithResourcesSnapshot (cloneWithResourcesSnapshot exObject none).1 none).2 =
      [Call.clone] :=
  ⟨by decide, (cloneWithResourcesSnapshot_idempotent exObject none none).2.1⟩

end KisLinkedResourcesOperators
